import Mathlib

/-!
Verification of the qfrm forward-start and quanto option pricers.

The Python sources are shallowly embedded over `ℝ`.  External numerical
primitives (the standard normal CDF `scipy.stats.norm.cdf`, numpy's seeded
normal-variate generation, and numpy's `polyfit`/`polyval` least-squares pair)
are abstracted as function parameters, exactly as the specification treats
them (assumed available from an external numerical library).  Fallible Python
code is modelled with explicit outcome types: `assert` failures, `return
False` paths, `ZeroDivisionError`, `ValueError` (math domain) and
`IndexError` each get a constructor.
-/

/-- Python's `s.lower()[0]`: the first character of the lowercased string,
`none` when the string is empty (where Python raises `IndexError`). -/
def pyLowerFirst (s : String) : Option Char :=
  (s.toList.map Char.toLower).head?

/-- Outcome of `ForwardStart._calc_BS`: the Python method can `return False`
(inner `try/except` paths), raise `AssertionError` (the validation asserts),
raise `ZeroDivisionError` or a math-domain `ValueError` while evaluating the
Black-Scholes terms, or finish normally having written a price into
`px_spec`. -/
inductive FSOutcome where
  | retFalse : FSOutcome
  | assertErr : String → FSOutcome
  | zeroDivErr : FSOutcome
  | mathDomainErr : FSOutcome
  | priced : ℝ → FSOutcome

/-- Tests whether the call finished normally and wrote a price. -/
def FSOutcome.isPriced : FSOutcome → Bool
  | .priced _ => true
  | _ => false

/-- Tests whether the call died on one of the validation asserts. -/
def FSOutcome.isAssertErr : FSOutcome → Bool
  | .assertErr _ => true
  | _ => false

namespace ForwardStart

/-- Body of `ForwardStart._calc_BS` after the `right.lower()[0]` extraction
succeeded with first character `c` (src/ForwardStart.py lines 143-184):
the strike defaults to the spot when `K` is absent, the eight validation
asserts run in source order, then `d1`/`d2` and the price are computed.
The Black-Scholes evaluation can raise: `S0/K` raises `ZeroDivisionError`
when `K = 0`, `log` raises a math-domain `ValueError` on a non-positive
argument, and the division by `vol*sqrt(T)` raises `ZeroDivisionError`
when `vol = 0`. -/
noncomputable def calc_BS_body (Φ : ℝ → ℝ) (c : Char)
    (S0 T T_s vol r q : ℝ) (K? : Option ℝ) : FSOutcome :=
  let K := K?.getD S0
  if c = 'c' ∨ c = 'p' then
    if vol < 0 then .assertErr "vol >=0" else
    if T ≤ 0 then .assertErr "T > 0" else
    if T_s < 0 then .assertErr "T_s >= 0" else
    if S0 < 0 then .assertErr "S >= 0" else
    if K < 0 then .assertErr "K >= 0" else
    if r < 0 then .assertErr "r >= 0" else
    if q < 0 then .assertErr "q >= 0" else
    if K = 0 then .zeroDivErr else
    if S0 / K ≤ 0 then .mathDomainErr else
    if vol * Real.sqrt T = 0 then .zeroDivErr else
    let d1 := (Real.log (S0 / K) + (r - q + vol ^ 2 / 2) * T) / (vol * Real.sqrt T)
    let d2 := d1 - vol * Real.sqrt T
    if c = 'c' then
      .priced ((S0 * Real.exp (-q * T) * Φ d1 - K * Real.exp (-r * T) * Φ d2) *
        Real.exp (-q * T_s))
    else
      .priced ((K * Real.exp (-r * T) * Φ (-d2) - S0 * Real.exp (-q * T) * Φ (-d1)) *
        Real.exp (-q * T_s))
  else .assertErr "right should be either \"call\" or \"put\" "

/-- Embedding of `ForwardStart._calc_BS` (src/ForwardStart.py lines 123-184).  `Φ` is
`scipy.stats.norm.cdf`.  An empty `right` makes `right.lower()[0]` raise
inside the first `try`, whose `except` prints and returns `False`. -/
noncomputable def calc_BS (Φ : ℝ → ℝ) (right : String)
    (S0 T T_s vol r q : ℝ) (K? : Option ℝ) : FSOutcome :=
  match pyLowerFirst right with
  | none => .retFalse
  | some c => calc_BS_body Φ c S0 T T_s vol r q K?

end ForwardStart

/-- The call branch of the spec's closed form (§4.2): with
`d1 = (ln(S0/K) + (r−q+σ²/2)·T)/(σ√T)` and `d2 = d1 − σ√T`,
`(S0·e^{−qT}·Φ(d1) − K·e^{−rT}·Φ(d2))·e^{−q·T_s}`. -/
noncomputable def bsCallPrice (Φ : ℝ → ℝ) (S0 K vol r q T T_s : ℝ) : ℝ :=
  let d1 := (Real.log (S0 / K) + (r - q + vol ^ 2 / 2) * T) / (vol * Real.sqrt T)
  let d2 := d1 - vol * Real.sqrt T
  (S0 * Real.exp (-q * T) * Φ d1 - K * Real.exp (-r * T) * Φ d2) * Real.exp (-q * T_s)

/-- The put branch of the spec's closed form (§4.2):
`(K·e^{−rT}·Φ(−d2) − S0·e^{−qT}·Φ(−d1))·e^{−q·T_s}`. -/
noncomputable def bsPutPrice (Φ : ℝ → ℝ) (S0 K vol r q T T_s : ℝ) : ℝ :=
  let d1 := (Real.log (S0 / K) + (r - q + vol ^ 2 / 2) * T) / (vol * Real.sqrt T)
  let d2 := d1 - vol * Real.sqrt T
  (K * Real.exp (-r * T) * Φ (-d2) - S0 * Real.exp (-q * T) * Φ (-d1)) * Real.exp (-q * T_s)

/-- The `Stock` collaborator: spot, volatility and dividend yield (the other
fields — ticker, currency, description — play no role in pricing). -/
structure Stock where
  S0 : ℝ
  vol : ℝ
  q : ℝ

/-- Abstraction of `numpy.random` as used by `Quanto._calc_MC`: a global
generator state of type `σ`, where `seed(s)` resets the state, and one batch
call `normal(loc, scale, (rows, cols))` yields a matrix of draws and advances
the state.  The module-level generator is modelled by threading the state. -/
structure NumpyRng (σ : Type) where
  seedInit : ℕ → σ
  normalGrid : σ → ℝ → ℝ → ℕ → ℕ → (ℕ → ℕ → ℝ)
  normalNext : σ → ℝ → ℝ → ℕ → ℕ → σ

/-- Outcome of `Quanto._calc_MC`: `dt = T/n_steps` raises
`ZeroDivisionError` when `n_steps = 0`; `right.lower()[0]` raises
`IndexError` on an empty `right`; otherwise the method writes a price
into `px_spec` and returns, leaving the global generator in a new state. -/
inductive MCOutcome (σ : Type) where
  | zeroDivErr : MCOutcome σ
  | indexErr : MCOutcome σ
  | result : ℝ → σ → MCOutcome σ

/-- Tests whether the call finished normally and wrote a price (`px_spec.add`). -/
def MCOutcome.isResult {σ : Type} : MCOutcome σ → Bool
  | .result _ _ => true
  | _ => false

/-- The global generator state after the call, when it finished normally. -/
def MCOutcome.globalOut {σ : Type} : MCOutcome σ → Option σ
  | .result _ g => some g
  | _ => none

namespace Quanto

/-- The quanto drift adjustment as computed inline by `Quanto._calc_LT`
(src/Quanto.py lines 154-157). -/
def foreignDivYieldLT (correlation vol vol_ex rf_r q frf_r : ℝ) : ℝ :=
  let growth_rate_of_underlying := correlation * vol * vol_ex
  let domestic_numeraire := rf_r - q
  let foreign_numeraire := domestic_numeraire + growth_rate_of_underlying
  frf_r - foreign_numeraire

/-- The quanto drift adjustment as computed inline by `Quanto._calc_MC`
(src/Quanto.py lines 217-220); textually the same chain as the lattice one. -/
def foreignDivYieldMC (correlation vol vol_ex rf_r q frf_r : ℝ) : ℝ :=
  let growth_rate_of_underlying := correlation * vol * vol_ex
  let domestic_numeraire := rf_r - q
  let foreign_numeraire := domestic_numeraire + growth_rate_of_underlying
  frf_r - foreign_numeraire

/-- Embedding of `Quanto._calc_LT` (src/Quanto.py lines 136-167): compute the foreign
numeraire dividend yield, build the synthetic `Stock`, and delegate to the
external American binomial engine, adopting its returned price spec verbatim.
The engine (`American(...).calc_px(method='LT', nsteps, keep_hist).px_spec`)
is an external collaborator, abstracted as the function `engine` taking the
synthetic stock, right, strike, maturity, rate, step count and history flag,
and returning an opaque price spec of type `α`. -/
def calc_LT {α : Type} (engine : Stock → String → ℝ → ℝ → ℝ → ℕ → Bool → α)
    (S0 vol q : ℝ) (right : String) (K T rf_r frf_r vol_ex correlation : ℝ)
    (keep_hist : Bool) (nsteps : ℕ) : α :=
  let yield := foreignDivYieldLT correlation vol vol_ex rf_r q frf_r
  engine ⟨S0, vol, yield⟩ right K T frf_r nsteps keep_hist

end Quanto

/-- One backward-induction update of `Quanto._calc_MC`'s loop body
(src/Quanto.py lines 232-235): fit a degree-`deg` polynomial of
`v[i+1]*df` against `S[i]` over all `npaths` paths (`polyfit`), evaluate it
at `S[i]` (`polyval`) to get continuation values, and overwrite row `i` of
`v` with the exercise decision `where(payout[i] > C, payout[i], v[i+1]*df)`.
`fit deg npaths xs ys` abstracts the `polyval(polyfit(xs, ys, deg), ·)`
composite. -/
noncomputable def lsmStep (fit : ℕ → ℕ → (ℕ → ℝ) → (ℕ → ℝ) → ℝ → ℝ) (deg npaths : ℕ)
    (payout S : ℕ → ℕ → ℝ) (df : ℝ) (v : ℕ → ℕ → ℝ) (i : ℕ) : ℕ → ℕ → ℝ :=
  let cont := fun p => v (i + 1) p * df
  let C := fit deg npaths (S i) cont
  fun t => if t = i then (fun p => if payout i p > C (S i p) then payout i p else cont p)
    else v t

/-- The backward-induction `for` loop of `Quanto._calc_MC`, folding
`lsmStep` over the given list of row indices starting from value grid `v`. -/
noncomputable def lsmLoop (fit : ℕ → ℕ → (ℕ → ℝ) → (ℕ → ℝ) → ℝ → ℝ) (deg npaths : ℕ)
    (payout S : ℕ → ℕ → ℝ) (df : ℝ) (v : ℕ → ℕ → ℝ) (l : List ℕ) : ℕ → ℕ → ℝ :=
  l.foldl (lsmStep fit deg npaths payout S df) v

/-- Python's `range(n-1, 0, -1)`: the indices `n-1, n-2, ..., 1`. -/
def pyRangeRev (n : ℕ) : List ℕ :=
  (List.range' 1 (n - 1)).reverse

/-- The simulated spot grid of `Quanto._calc_MC` (src/Quanto.py line 229):
`S = S0 * exp(cumsum(draws, axis=0))` followed by the overwrite `S[0] = S0`.
Row `t ≥ 1` is `S0·exp(draws[0,p] + ... + draws[t,p])`. -/
noncomputable def mcSimGrid (S0 : ℝ) (draws : ℕ → ℕ → ℝ) : ℕ → ℕ → ℝ :=
  fun t p => if t = 0 then S0
    else S0 * Real.exp (Finset.sum (Finset.range (t + 1)) (fun j => draws j p))

/-- The specification's backward-induction value grid (§4.4, steps 6-7),
indexed by distance from maturity: `lsmSpecValueAux ... n 0` is the terminal
payout row `payout[n]`, and `lsmSpecValueAux ... n (k+1)` is the value row at
time `t = n-(k+1)`: fit the degree-`deg` polynomial regressing
`value[t+1,·]·df` on `S[t,·]` over every path, evaluate it at `S[t,·]` for
continuation estimates `C`, and take `payout[t,p]` when `payout[t,p] > C[p]`,
else `value[t+1,p]·df`. -/
noncomputable def lsmSpecValueAux (fit : ℕ → ℕ → (ℕ → ℝ) → (ℕ → ℝ) → ℝ → ℝ) (deg npaths : ℕ)
    (payout S : ℕ → ℕ → ℝ) (df : ℝ) (n : ℕ) : ℕ → ℕ → ℝ
  | 0 => payout n
  | k + 1 =>
    let t := n - (k + 1)
    let cont := fun p => lsmSpecValueAux fit deg npaths payout S df n k p * df
    let C := fit deg npaths (S t) cont
    fun p => if payout t p > C (S t p) then payout t p else cont p

/-- The specification's reference LSM price (§4.4, steps 6-9) on a given
simulated grid `S`: `payout[t,p] = max(signCP·(S[t,p]−K), 0)` on the full
grid, backward induction from `t = n_steps−1` down to `1`,
`value[0,·] = value[1,·]·df`, and the price is the mean over paths of
`value[0,·]`. -/
noncomputable def lsmSpecPrice (fit : ℕ → ℕ → (ℕ → ℝ) → (ℕ → ℝ) → ℝ → ℝ)
    (deg : ℕ) (S : ℕ → ℕ → ℝ) (signCP K df : ℝ) (n_steps n_paths : ℕ) : ℝ :=
  let payout := fun t p => max (signCP * (S t p - K)) 0
  let value1 := lsmSpecValueAux fit deg n_paths payout S df n_steps (n_steps - 1)
  let value0 := fun p => value1 p * df
  (Finset.sum (Finset.range n_paths) value0) / (n_paths : ℝ)

namespace Quanto

/-- Embedding of `Quanto._calc_MC` (src/Quanto.py lines 190-239).  `rng` abstracts
`numpy.random` with module-level state `g0`; `fit` abstracts the
`polyval(polyfit(·,·,deg), ·)` composite; `pxSeed` is `self.px_spec.seed`.
In source order: the foreign numeraire dividend yield (lines 217-220), then
`dt = T/n_steps` (raising `ZeroDivisionError` when `n_steps = 0`) and
`df = exp(-frf_r*dt)`, `signCP` from `right.lower()[0]` (raising
`IndexError` on empty `right`), the global re-seed `seed(px_spec.seed)`,
the batch of normal draws with mean `(frf_r - q' - vol²/2)·dt` and standard
deviation `vol·√dt`, the spot grid, the full payout grid
`maximum(signCP*(S-K), 0)`, the backward-induction loop over
`range(n_steps-1, 0, -1)`, the final `v[0] = v[1]*df` and
`px_spec.add(px=mean(v[0]))`. -/
noncomputable def calc_MC {σ : Type} (rng : NumpyRng σ) (g0 : σ)
    (fit : ℕ → ℕ → (ℕ → ℝ) → (ℕ → ℝ) → ℝ → ℝ)
    (S0 vol q K T rf_r frf_r : ℝ) (right : String) (vol_ex correlation : ℝ)
    (n_steps n_paths pxSeed deg : ℕ) : MCOutcome σ :=
  let fDivYield := foreignDivYieldMC correlation vol vol_ex rf_r q frf_r
  if n_steps = 0 then .zeroDivErr else
  let dt := T / (n_steps : ℝ)
  let df := Real.exp (-frf_r * dt)
  match pyLowerFirst right with
  | none => .indexErr
  | some c =>
    let signCP : ℝ := if c = 'c' then 1 else -1
    let g1 := rng.seedInit pxSeed
    let loc := (frf_r - fDivYield - 0.5 * vol ^ 2) * dt
    let scale := vol * Real.sqrt dt
    let draws := rng.normalGrid g1 loc scale (n_steps + 1) n_paths
    let g2 := rng.normalNext g1 loc scale (n_steps + 1) n_paths
    let S := mcSimGrid S0 draws
    let payout := fun t p => max (signCP * (S t p - K)) 0
    let v := lsmLoop fit deg n_paths payout S df payout (pyRangeRev n_steps)
    let v0 := fun p => v 1 p * df
    .result ((Finset.sum (Finset.range n_paths) v0) / (n_paths : ℝ)) g2

/-- The `PriceSpec` record populated by `Quanto.calc_px`
(src/Quanto.py lines 132-133). -/
structure PriceSpec where
  method : String
  nsteps : Option ℕ
  npaths : Option ℕ
  keep_hist : Bool
  vol_ex : ℝ
  correlation : ℝ
  seed : ℕ
  deg : ℕ

/-- The `PriceSpec(...)` construction on src/Quanto.py lines 132-133.  The
caller's `seed` argument `seedArg` is received but the source passes the
literal `seed=1`, so the stored seed is `1`. -/
def mkPxSpec (method : String) (nsteps npaths : Option ℕ) (keep_hist : Bool)
    (vol_ex correlation : ℝ) (seedArg deg : ℕ) : PriceSpec :=
  { method := method, nsteps := nsteps, npaths := npaths, keep_hist := keep_hist,
    vol_ex := vol_ex, correlation := correlation, seed := 1, deg := deg }

/-- Embedding of the `calc_px` MC dispatch (src/Quanto.py lines 14-134): store
the parameters in a fresh `PriceSpec` and dispatch to `_calc_MC`, which reads
`vol_ex`, `correlation`, `nsteps`, `npaths`, `seed` and `deg` back from it. -/
noncomputable def calc_px_MC {σ : Type} (rng : NumpyRng σ) (g0 : σ)
    (fit : ℕ → ℕ → (ℕ → ℝ) → (ℕ → ℝ) → ℝ → ℝ)
    (S0 vol q K T rf_r frf_r : ℝ) (right : String)
    (nsteps npaths : ℕ) (keep_hist : Bool) (vol_ex correlation : ℝ)
    (seedArg deg : ℕ) : MCOutcome σ :=
  let spec := mkPxSpec "MC" (some nsteps) (some npaths) keep_hist vol_ex correlation
    seedArg deg
  calc_MC rng g0 fit S0 vol q K T rf_r frf_r right spec.vol_ex spec.correlation
    nsteps npaths spec.seed spec.deg

end Quanto

/-- A degenerate generator with trivial state, for concrete instantiation. -/
def unitRng : NumpyRng Unit where
  seedInit := fun _ => ()
  normalGrid := fun _ _ _ _ _ => fun _ _ => 0
  normalNext := fun _ _ _ _ _ => ()

/-- A degenerate regression primitive (constant zero fit), for concrete
instantiation. -/
def zeroFit : ℕ → ℕ → (ℕ → ℝ) → (ℕ → ℝ) → ℝ → ℝ := fun _ _ _ _ _ => 0

lemma lsmLoop_range_eq (fit : ℕ → ℕ → (ℕ → ℝ) → (ℕ → ℝ) → ℝ → ℝ) (deg npaths : ℕ)
    (payout S : ℕ → ℕ → ℝ) (df : ℝ) (n : ℕ) :
    ∀ k t, t + k = n → ∀ j,
      lsmLoop fit deg npaths payout S df payout ((List.range' t k).reverse) j
        = if t ≤ j ∧ j ≤ n then lsmSpecValueAux fit deg npaths payout S df n (n - j)
          else payout j := by
  intro k
  induction k with
  | zero =>
    intro t ht j
    obtain rfl : t = n := by omega
    show payout j = _
    by_cases h : t ≤ j ∧ j ≤ t
    · obtain rfl : j = t := le_antisymm h.2 h.1
      rw [if_pos h, Nat.sub_self]
      rfl
    · rw [if_neg h]
  | succ k ih =>
    intro t ht j
    have hsplit :
        lsmLoop fit deg npaths payout S df payout ((List.range' t (k + 1)).reverse)
          = lsmStep fit deg npaths payout S df
              (lsmLoop fit deg npaths payout S df payout ((List.range' (t + 1) k).reverse))
              t := by
      show List.foldl _ payout ((List.range' t (k + 1)).reverse) = _
      rw [show List.range' t (k + 1) = t :: List.range' (t + 1) k from rfl,
        List.reverse_cons, List.foldl_append]
      rfl
    rw [hsplit]
    have hW := ih (t + 1) (by omega)
    have hW1 : lsmLoop fit deg npaths payout S df payout
        ((List.range' (t + 1) k).reverse) (t + 1)
        = lsmSpecValueAux fit deg npaths payout S df n k := by
      rw [hW (t + 1), if_pos ⟨le_refl _, by omega⟩, show n - (t + 1) = k by omega]
    simp only [lsmStep]
    by_cases hj : j = t
    · subst hj
      rw [if_pos rfl, if_pos ⟨le_refl j, by omega⟩, show n - j = k + 1 by omega]
      simp only [lsmSpecValueAux, show n - (k + 1) = j by omega]
      simp only [hW1]
    · rw [if_neg hj, hW j]
      by_cases hcond : t ≤ j ∧ j ≤ n
      · rw [if_pos ⟨by omega, hcond.2⟩, if_pos hcond]
      · rw [if_neg (by omega), if_neg hcond]

lemma lsmLoop_price_eq (fit : ℕ → ℕ → (ℕ → ℝ) → (ℕ → ℝ) → ℝ → ℝ) (deg npaths : ℕ)
    (S : ℕ → ℕ → ℝ) (signCP K df : ℝ) (n : ℕ) (hn : 1 ≤ n) :
    (Finset.sum (Finset.range npaths)
        (fun p => lsmLoop fit deg npaths (fun t p => max (signCP * (S t p - K)) 0) S df
          (fun t p => max (signCP * (S t p - K)) 0) (pyRangeRev n) 1 p * df))
        / (npaths : ℝ)
      = lsmSpecPrice fit deg S signCP K df n npaths := by
  have h := lsmLoop_range_eq fit deg npaths
    (fun t p => max (signCP * (S t p - K)) 0) S df n (n - 1) 1 (by omega) 1
  rw [if_pos ⟨le_refl 1, by omega⟩] at h
  simp only [pyRangeRev, lsmSpecPrice, h]

lemma calc_BS_priced_eval (Φ : ℝ → ℝ) (right : String)
    (S0 T T_s vol r q : ℝ) (K? : Option ℝ) (c : Char)
    (hc : pyLowerFirst right = some c) (hcp : c = 'c' ∨ c = 'p')
    (hvol : 0 < vol) (hT : 0 < T) (hTs : 0 ≤ T_s) (hS0 : 0 < S0)
    (hr : 0 ≤ r) (hq : 0 ≤ q) (hK : 0 < K?.getD S0) :
    ForwardStart.calc_BS Φ right S0 T T_s vol r q K? =
      FSOutcome.priced (if c = 'c' then bsCallPrice Φ S0 (K?.getD S0) vol r q T T_s
        else bsPutPrice Φ S0 (K?.getD S0) vol r q T T_s) := by
  have hden : vol * Real.sqrt T ≠ 0 :=
    (mul_pos hvol (Real.sqrt_pos.mpr hT)).ne'
  rw [ForwardStart.calc_BS, hc]
  simp only [ForwardStart.calc_BS_body]
  rw [if_pos hcp, if_neg (not_lt.mpr hvol.le), if_neg (not_le.mpr hT),
    if_neg (not_lt.mpr hTs), if_neg (not_lt.mpr hS0.le), if_neg (not_lt.mpr hK.le),
    if_neg (not_lt.mpr hr), if_neg (not_lt.mpr hq), if_neg hK.ne',
    if_neg (not_le.mpr (div_pos hS0 hK)), if_neg hden]
  by_cases hcc : c = 'c'
  · rw [if_pos hcc, if_pos hcc, bsCallPrice]
  · rw [if_neg hcc, if_neg hcc, bsPutPrice]

/-- C1: for every quanto contract with `n_steps ≥ 1` and `n_paths ≥ 1`, the
Monte-Carlo LSM price returned by `Quanto._calc_MC` equals the spec's
reference recurrence evaluated on the pricer's simulated grid:
`payout[t,p] = max(signCP·(S[t,p]−K), 0)` on the full grid; for `t` from
`n_steps−1` down to `1` a degree-`deg` polynomial regresses `value[t+1,·]·df`
on `S[t,·]` over every path, and
`value[t,p] = payout[t,p]` when `payout[t,p] > C[p]`, else `value[t+1,p]·df`;
then `value[0,·] = value[1,·]·df` and the price is the path mean of
`value[0,·]`, with `df = e^{−r_f·dt}` and `dt = T/n_steps`.  For
`n_steps = 1` the loop body never runs and only the terminal payout enters. -/
theorem quanto_MC_price_matches_spec_recurrence {σ : Type} (rng : NumpyRng σ) (g0 : σ)
    (fit : ℕ → ℕ → (ℕ → ℝ) → (ℕ → ℝ) → ℝ → ℝ)
    (S0 vol q K T rf_r frf_r : ℝ) (right : String) (vol_ex correlation : ℝ)
    (n_steps n_paths pxSeed deg : ℕ) (c : Char)
    (hright : pyLowerFirst right = some c)
    (hs : 1 ≤ n_steps) (hp : 1 ≤ n_paths) :
    Quanto.calc_MC rng g0 fit S0 vol q K T rf_r frf_r right vol_ex correlation
        n_steps n_paths pxSeed deg
      = MCOutcome.result
          (lsmSpecPrice fit deg
            (mcSimGrid S0 (rng.normalGrid (rng.seedInit pxSeed)
              ((frf_r - Quanto.foreignDivYieldMC correlation vol vol_ex rf_r q frf_r
                  - 0.5 * vol ^ 2) * (T / (n_steps : ℝ)))
              (vol * Real.sqrt (T / (n_steps : ℝ))) (n_steps + 1) n_paths))
            (if c = 'c' then 1 else -1) K (Real.exp (-frf_r * (T / (n_steps : ℝ))))
            n_steps n_paths)
          (rng.normalNext (rng.seedInit pxSeed)
            ((frf_r - Quanto.foreignDivYieldMC correlation vol vol_ex rf_r q frf_r
                - 0.5 * vol ^ 2) * (T / (n_steps : ℝ)))
            (vol * Real.sqrt (T / (n_steps : ℝ))) (n_steps + 1) n_paths) := by
  simp only [Quanto.calc_MC, if_neg (by omega : ¬ n_steps = 0), hright]
  congr 1
  exact lsmLoop_price_eq fit deg n_paths _ _ K _ n_steps hs

/-- C3: for every input — with no range restriction on the correlation ρ,
including values outside `[-1, 1]` — the quanto adjustment computed by both
the lattice pricer and the MC pricer is exactly
`q' = r_f − ((r − q) + ρ·σ·σ_fx)` (here `r = rf_r`, `r_f = frf_r`,
`σ = vol`, `σ_fx = vol_ex`), as a total pure function. -/
theorem quanto_adjustment_formula (correlation vol vol_ex rf_r q frf_r : ℝ) :
    Quanto.foreignDivYieldLT correlation vol vol_ex rf_r q frf_r
        = frf_r - ((rf_r - q) + correlation * vol * vol_ex)
      ∧ Quanto.foreignDivYieldMC correlation vol vol_ex rf_r q frf_r
        = frf_r - ((rf_r - q) + correlation * vol * vol_ex) :=
  ⟨rfl, rfl⟩

/-- C4: two calls of the MC pricer through `calc_px` with identical
(contract, σ_fx, ρ, n_steps, n_paths, deg, seed) arguments return identical
outcomes, whatever the ambient global generator states `g` and `g'` were:
the call begins by re-seeding the generator, so the incoming state is dead
and the result is bit-identical across runs. -/
theorem quanto_MC_two_run_determinism {σ : Type} (rng : NumpyRng σ) (g g' : σ)
    (fit : ℕ → ℕ → (ℕ → ℝ) → (ℕ → ℝ) → ℝ → ℝ)
    (S0 vol q K T rf_r frf_r : ℝ) (right : String) (nsteps npaths : ℕ)
    (keep_hist : Bool) (vol_ex correlation : ℝ) (seedArg deg : ℕ) :
    Quanto.calc_px_MC rng g fit S0 vol q K T rf_r frf_r right nsteps npaths
        keep_hist vol_ex correlation seedArg deg
      = Quanto.calc_px_MC rng g' fit S0 vol q K T rf_r frf_r right nsteps npaths
        keep_hist vol_ex correlation seedArg deg :=
  rfl

/-- C5 (code evaluation): the MC pricing path does NOT use a dedicated
generator seeded with the caller's seed.  The `PriceSpec` built by `calc_px`
stores the literal `1` whatever seed the caller passed; consequently the
whole MC outcome is independent of the caller's `seed` argument; and the
call overwrites the module-global generator state with the state reached
from `seed(1)` — shown here for `nsteps = 1` and `right = "call"`. -/
theorem quanto_MC_seed_ignored_global_rng {σ : Type} (rng : NumpyRng σ) (g : σ)
    (fit : ℕ → ℕ → (ℕ → ℝ) → (ℕ → ℝ) → ℝ → ℝ)
    (S0 vol q K T rf_r frf_r : ℝ) (right : String) (nsteps npaths : ℕ)
    (keep_hist : Bool) (vol_ex correlation : ℝ) (s s' deg : ℕ) :
    (Quanto.mkPxSpec "MC" (some nsteps) (some npaths) keep_hist vol_ex correlation
        s deg).seed = 1
      ∧ Quanto.calc_px_MC rng g fit S0 vol q K T rf_r frf_r right nsteps npaths
          keep_hist vol_ex correlation s deg
        = Quanto.calc_px_MC rng g fit S0 vol q K T rf_r frf_r right nsteps npaths
          keep_hist vol_ex correlation s' deg
      ∧ (Quanto.calc_px_MC rng g fit S0 vol q K T rf_r frf_r "call" 1 npaths
          keep_hist vol_ex correlation s deg).globalOut
        = some (rng.normalNext (rng.seedInit 1)
            ((frf_r - Quanto.foreignDivYieldMC correlation vol vol_ex rf_r q frf_r
                - 0.5 * vol ^ 2) * (T / ((1 : ℕ) : ℝ)))
            (vol * Real.sqrt (T / ((1 : ℕ) : ℝ))) 2 npaths) :=
  ⟨rfl, rfl, rfl⟩

/-- C6: for every quanto contract, the lattice pricer's result is exactly the
external American binomial engine applied to the synthetic contract it
constructs — underlying with spot `S0`, volatility `vol`, dividend yield
`q' = frf_r − ((rf_r − q) + ρ·σ·σ_fx)`, together with `right`, strike `K`,
maturity `T`, rate `frf_r`, the step count and the history flag — the
engine's returned price spec being adopted verbatim. -/
theorem quanto_LT_delegates_to_engine {α : Type}
    (engine : Stock → String → ℝ → ℝ → ℝ → ℕ → Bool → α)
    (S0 vol q : ℝ) (right : String) (K T rf_r frf_r vol_ex correlation : ℝ)
    (keep_hist : Bool) (nsteps : ℕ) :
    Quanto.calc_LT engine S0 vol q right K T rf_r frf_r vol_ex correlation
        keep_hist nsteps
      = engine ⟨S0, vol, frf_r - ((rf_r - q) + correlation * vol * vol_ex)⟩
          right K T frf_r nsteps keep_hist :=
  rfl

/-- C8 (code evaluation): `Quanto._calc_MC` performs no validation of
`n_steps`/`n_paths`.  With `n_steps = 0` the call dies computing
`dt = T/n_steps` with a `ZeroDivisionError` (not an eager validation
error); with `n_steps = 1` and `n_paths = 0` the call is not rejected at
all — it runs to completion and writes a price into `px_spec`. -/
theorem quanto_MC_no_step_validation {σ : Type} (rng : NumpyRng σ) (g0 : σ)
    (fit : ℕ → ℕ → (ℕ → ℝ) → (ℕ → ℝ) → ℝ → ℝ)
    (S0 vol q K T rf_r frf_r : ℝ) (right : String) (vol_ex correlation : ℝ)
    (n_paths pxSeed deg : ℕ) :
    Quanto.calc_MC rng g0 fit S0 vol q K T rf_r frf_r right vol_ex correlation
        0 n_paths pxSeed deg
      = MCOutcome.zeroDivErr
      ∧ (Quanto.calc_MC rng g0 fit S0 vol q K T rf_r frf_r "call" vol_ex correlation
          1 0 pxSeed deg).isResult = true :=
  ⟨rfl, rfl⟩

/-- C9 (code evaluation): at `σ = 0` with otherwise valid inputs
(S0 = 50, K = 50, T = 0.5, T_s = 0.5, r = 0.1, q = 0.05, call) the
forward-start analytic pricer does not return the discounted intrinsic
forward value — the `vol >= 0` assert admits `σ = 0` and the subsequent
division by `vol*sqrt(T) = 0` in `d1` raises `ZeroDivisionError`. -/
theorem forwardstart_sigma_zero_raises_zero_division :
    ForwardStart.calc_BS (fun _ => 0) "call" 50 0.5 0.5 0 0.1 0.05 (some 50)
      = FSOutcome.zeroDivErr := by
  have hc : pyLowerFirst "call" = some 'c' := rfl
  rw [ForwardStart.calc_BS, hc]
  simp only [ForwardStart.calc_BS_body, Option.getD_some]
  norm_num

/-- C2 (counterexample): the claim admits every `S0 ≥ 0`, but at `S0 = 0`
(with all of the claim's other validity conditions satisfied:
call, σ = 0.15 > 0, T = 0.5 > 0, T_s = 0.5 ≥ 0, K = 50 ≥ 0, r = 0.1 ≥ 0,
q = 0.05 ≥ 0) the pricer does not return the closed-form price: `log(S0/K)`
raises a math-domain `ValueError` on `log(0)`. -/
theorem forwardstart_formula_fails_at_zero_spot :
    ForwardStart.calc_BS (fun _ => 0) "call" 0 0.5 0.5 0.15 0.1 0.05 (some 50)
      = FSOutcome.mathDomainErr := by
  have hc : pyLowerFirst "call" = some 'c' := rfl
  rw [ForwardStart.calc_BS, hc]
  simp only [ForwardStart.calc_BS_body, Option.getD_some]
  norm_num

/-- C2 (amended): for every valid forward-start contract with
`right ∈ {call, put}`, `σ > 0`, `T > 0`, `T_s ≥ 0`, `r ≥ 0`, `q ≥ 0` and
strictly positive spot and (defaulted) strike — `S0 > 0` and `K > 0`, the
strike defaulting to `S0` when unset — the analytic pricer returns exactly
the closed form: `d1 = (ln(S0/K) + (r−q+σ²/2)·T)/(σ√T)`, `d2 = d1 − σ√T`,
call price `(S0·e^{−qT}·Φ(d1) − K·e^{−rT}·Φ(d2))·e^{−q·T_s}` and put price
`(K·e^{−rT}·Φ(−d2) − S0·e^{−qT}·Φ(−d1))·e^{−q·T_s}`, deterministically and
with no side effects. -/
theorem forwardstart_BS_formula (Φ : ℝ → ℝ) (right : String)
    (S0 T T_s vol r q : ℝ) (K? : Option ℝ)
    (hr : right = "call" ∨ right = "put")
    (hvol : 0 < vol) (hT : 0 < T) (hTs : 0 ≤ T_s) (hS0 : 0 < S0)
    (hrr : 0 ≤ r) (hq : 0 ≤ q) (hK : 0 < K?.getD S0) :
    ForwardStart.calc_BS Φ right S0 T T_s vol r q K?
      = FSOutcome.priced (if right = "call"
          then bsCallPrice Φ S0 (K?.getD S0) vol r q T T_s
          else bsPutPrice Φ S0 (K?.getD S0) vol r q T T_s) := by
  rcases hr with hr | hr <;> subst hr
  · rw [calc_BS_priced_eval Φ "call" S0 T T_s vol r q K? 'c' rfl (Or.inl rfl)
      hvol hT hTs hS0 hrr hq hK]
    simp
  · rw [calc_BS_priced_eval Φ "put" S0 T T_s vol r q K? 'p' rfl (Or.inr rfl)
      hvol hT hTs hS0 hrr hq hK]
    simp

/-- C2 (witness): the amended theorem at the spec's concrete test inputs
S0 = 50, σ = 0.15, q = 0.05, T_s = 0.5, T = 0.5, r = 0.1, call, strike
unset (defaulting to S0). -/
theorem forwardstart_BS_formula_witness :
    ForwardStart.calc_BS (fun _ => 0) "call" 50 0.5 0.5 0.15 0.1 0.05 none
      = FSOutcome.priced (if "call" = "call"
          then bsCallPrice (fun _ => 0) 50 (Option.getD none 50) 0.15 0.1 0.05 0.5 0.5
          else bsPutPrice (fun _ => 0) 50 (Option.getD none 50) 0.15 0.1 0.05 0.5 0.5) :=
  forwardstart_BS_formula (fun _ => 0) "call" 50 0.5 0.5 0.15 0.1 0.05 none
    (Or.inl rfl) (by norm_num) (by norm_num) (by norm_num) (by norm_num)
    (by norm_num) (by norm_num) (by norm_num [Option.getD_none])

/-- C7 (counterexample): `"chicken"` is not in `{call, put}`, yet the call
with otherwise valid inputs is not rejected — it is priced (as a call),
because validation only inspects `right.lower()[0]`. -/
theorem forwardstart_chicken_priced_counterexample :
    ("chicken" ≠ "call" ∧ "chicken" ≠ "put")
      ∧ (ForwardStart.calc_BS (fun _ => 0) "chicken" 50 0.5 0.5 0.15 0.1 0.05
          (some 50)).isPriced = true := by
  refine ⟨⟨by decide, by decide⟩, ?_⟩
  rw [calc_BS_priced_eval (fun _ => 0) "chicken" 50 0.5 0.5 0.15 0.1 0.05 (some 50)
    'c' rfl (Or.inl rfl) (by norm_num) (by norm_num) (by norm_num) (by norm_num)
    (by norm_num) (by norm_num) (by norm_num)]
  rfl

/-- C7 (amended): for every forward-start analytic call whose nonempty
`right` has a lowercased first character outside `{'c','p'}`, or with
`σ < 0`, `T ≤ 0`, `T_s < 0`, `S0 < 0`, `K < 0` (after defaulting to `S0`),
`r < 0` or `q < 0`, the call fails on a validation `assert`
(`AssertionError`, the source's ValidationError) before any price is
computed — no price is ever written on this path.  (An empty `right`
instead takes the first `except` path and returns `False`.) -/
theorem forwardstart_validation_rejects (Φ : ℝ → ℝ) (right : String)
    (S0 T T_s vol r q : ℝ) (K? : Option ℝ) (c : Char)
    (hc : pyLowerFirst right = some c)
    (hbad : ¬(c = 'c' ∨ c = 'p') ∨ vol < 0 ∨ T ≤ 0 ∨ T_s < 0 ∨ S0 < 0
      ∨ K?.getD S0 < 0 ∨ r < 0 ∨ q < 0) :
    (ForwardStart.calc_BS Φ right S0 T T_s vol r q K?).isAssertErr = true := by
  rw [ForwardStart.calc_BS, hc]
  simp only [ForwardStart.calc_BS_body]
  by_cases h1 : c = 'c' ∨ c = 'p'
  · rw [if_pos h1]
    by_cases h2 : vol < 0
    · rw [if_pos h2]; rfl
    · rw [if_neg h2]
      by_cases h3 : T ≤ 0
      · rw [if_pos h3]; rfl
      · rw [if_neg h3]
        by_cases h4 : T_s < 0
        · rw [if_pos h4]; rfl
        · rw [if_neg h4]
          by_cases h5 : S0 < 0
          · rw [if_pos h5]; rfl
          · rw [if_neg h5]
            by_cases h6 : K?.getD S0 < 0
            · rw [if_pos h6]; rfl
            · rw [if_neg h6]
              by_cases h7 : r < 0
              · rw [if_pos h7]; rfl
              · rw [if_neg h7]
                by_cases h8 : q < 0
                · rw [if_pos h8]; rfl
                · exact absurd hbad (by tauto)
  · rw [if_neg h1]; rfl

/-- C7 (witness): the amended theorem at a negative volatility. -/
theorem forwardstart_validation_rejects_witness :
    pyLowerFirst "call" = some 'c'
      ∧ (ForwardStart.calc_BS (fun _ => 0) "call" 50 0.5 0.5 (-1) 0.1 0.05
          (some 50)).isAssertErr = true :=
  ⟨rfl, forwardstart_validation_rejects (fun _ => 0) "call" 50 0.5 0.5 (-1) 0.1 0.05
    (some 50) 'c' rfl (Or.inr (Or.inl (by norm_num)))⟩

/-- C10: the forward-start analytic pricer classifies the option by only the
lowercased first character of `right`: when it is `'c'` the call behaves
exactly as with `right = "call"`, when `'p'` exactly as with
`right = "put"`, and for any other first character the validation assert
fires; the full words are never required. -/
theorem forwardstart_right_first_char_classification (Φ : ℝ → ℝ) (right : String)
    (S0 T T_s vol r q : ℝ) (K? : Option ℝ) (c : Char)
    (hc : pyLowerFirst right = some c) :
    ForwardStart.calc_BS Φ right S0 T T_s vol r q K?
      = if c = 'c' then ForwardStart.calc_BS Φ "call" S0 T T_s vol r q K?
        else if c = 'p' then ForwardStart.calc_BS Φ "put" S0 T T_s vol r q K?
        else FSOutcome.assertErr "right should be either \"call\" or \"put\" " := by
  have hcall : pyLowerFirst "call" = some 'c' := rfl
  have hput : pyLowerFirst "put" = some 'p' := rfl
  rw [ForwardStart.calc_BS, hc]
  by_cases h1 : c = 'c'
  · subst h1
    rw [if_pos rfl, ForwardStart.calc_BS, hcall]
  · rw [if_neg h1]
    by_cases h2 : c = 'p'
    · subst h2
      rw [if_pos rfl, ForwardStart.calc_BS, hput]
    · rw [if_neg h2]
      simp only [ForwardStart.calc_BS_body]
      rw [if_neg (by tauto : ¬(c = 'c' ∨ c = 'p'))]

/-- C10 (witness): `"chicken"` is priced exactly as `"call"`. -/
theorem forwardstart_right_first_char_classification_witness :
    ForwardStart.calc_BS (fun _ => 0) "chicken" 50 0.5 0.5 0.15 0.1 0.05 (some 50)
      = ForwardStart.calc_BS (fun _ => 0) "call" 50 0.5 0.5 0.15 0.1 0.05 (some 50) := by
  have h := forwardstart_right_first_char_classification (fun _ => 0) "chicken"
    50 0.5 0.5 0.15 0.1 0.05 (some 50) 'c' rfl
  simpa using h

/-- C1 (witness): the recurrence equality at a concrete one-step, one-path
instance with degenerate generator and regression primitives. -/
theorem quanto_MC_price_matches_spec_recurrence_witness :
    pyLowerFirst "call" = some 'c' ∧ 1 ≤ 1
      ∧ Quanto.calc_MC unitRng () zeroFit 1 1 0 1 1 0 0 "call" 0 0 1 1 1 5
        = MCOutcome.result
            (lsmSpecPrice zeroFit 5
              (mcSimGrid 1 (unitRng.normalGrid (unitRng.seedInit 1)
                ((0 - Quanto.foreignDivYieldMC 0 1 0 0 0 0 - 0.5 * 1 ^ 2)
                  * (1 / ((1 : ℕ) : ℝ)))
                (1 * Real.sqrt (1 / ((1 : ℕ) : ℝ))) (1 + 1) 1))
              (if 'c' = 'c' then 1 else -1) 1
              (Real.exp (-0 * (1 / ((1 : ℕ) : ℝ)))) 1 1)
            (unitRng.normalNext (unitRng.seedInit 1)
              ((0 - Quanto.foreignDivYieldMC 0 1 0 0 0 0 - 0.5 * 1 ^ 2)
                * (1 / ((1 : ℕ) : ℝ)))
              (1 * Real.sqrt (1 / ((1 : ℕ) : ℝ))) (1 + 1) 1) :=
  ⟨rfl, le_refl 1,
    quanto_MC_price_matches_spec_recurrence unitRng () zeroFit 1 1 0 1 1 0 0 "call"
      0 0 1 1 1 5 'c' rfl (le_refl 1) (le_refl 1)⟩
